import Mathlib

/-!
Verification of the `iree-rs` runtime binding layer.

This file gives a shallow embedding of the binding layer found in
`src/runtime/base.rs` and `src/runtime/api.rs`: the view-marshaling types
(`ByteSpan`, `ConstByteSpan`, `StringView`), the bridging allocator control
function `rust_allocator_ctl`, the `Status` / `StatusErrorKind` error model,
and the borrow structure of the `Instance` / `Device` / `Session` ownership
graph.  Machine pointers and `usize` values are modelled as `Nat`; host
memory is modelled as a byte map `Nat → Option Nat` (where `none` is an
uninitialized or unallocated cell); fallible or undefined-behaviour paths
return `Option`.
-/

namespace IreeRs

/-! ## View marshaling (`src/runtime/base.rs` lines 6-92)

A Rust slice `&[u8]` / `&mut [u8]` / `&str` is modelled as a base address
together with the list of bytes it denotes; process memory is a byte map.
The `sys` view structs carry only the pointer and the length, exactly as
`iree_byte_span_t` / `iree_const_byte_span_t` / `iree_string_view_t` do. -/

/-- Process memory as seen through raw pointers: a byte at every address. -/
abbrev Mem := Nat → Nat

/-- Model of a host slice (`&[u8]`, `&mut [u8]`, or the bytes of a `&str`):
its base address and the bytes it denotes. -/
structure HostSlice where
  addr : Nat
  content : List Nat
deriving DecidableEq

/-- `sys::iree_byte_span_t { data: *mut u8, data_length: usize }`. -/
structure iree_byte_span_t where
  data : Nat
  data_length : Nat
deriving DecidableEq

/-- `sys::iree_const_byte_span_t { data: *const u8, data_length: usize }`. -/
structure iree_const_byte_span_t where
  data : Nat
  data_length : Nat
deriving DecidableEq

/-- `sys::iree_string_view_t { data: *mut i8, size: usize }`. -/
structure iree_string_view_t where
  data : Nat
  size : Nat
deriving DecidableEq

/-- A host slice is coherent with memory when the byte map agrees with the
content the slice denotes, at every offset below its length. -/
def HostSlice.coherent (mem : Mem) (s : HostSlice) : Prop :=
  ∀ i, (hi : i < s.content.length) → mem (s.addr + i) = s.content.get ⟨i, hi⟩

/-- `std::slice::from_raw_parts(_mut)`: read `len` bytes starting at `addr`. -/
def readBytes (mem : Mem) (addr : Nat) : Nat → List Nat
  | 0 => []
  | n + 1 => mem addr :: readBytes mem (addr + 1) n

/-- `impl From<&'a mut [u8]> for ByteSpan<'a>` (base.rs lines 11-22):
the span records `slice.as_ptr()` and `slice.len()`. -/
def ByteSpan.from_mut_slice (s : HostSlice) : iree_byte_span_t :=
  ⟨s.addr, s.content.length⟩

/-- `impl From<ByteSpan<'a>> for &'a mut [u8]` (base.rs lines 24-28):
`from_raw_parts_mut(span.data, span.data_length)`. -/
def ByteSpan.to_mut_slice (mem : Mem) (b : iree_byte_span_t) : HostSlice :=
  ⟨b.data, readBytes mem b.data b.data_length⟩

/-- `impl From<&'a [u8]> for ConstByteSpan<'a>` (base.rs lines 35-46). -/
def ConstByteSpan.from_slice (s : HostSlice) : iree_const_byte_span_t :=
  ⟨s.addr, s.content.length⟩

/-- `impl From<ConstByteSpan<'a>> for &'a [u8]` (base.rs lines 48-52). -/
def ConstByteSpan.to_slice (mem : Mem) (b : iree_const_byte_span_t) : HostSlice :=
  ⟨b.data, readBytes mem b.data b.data_length⟩

/-- `impl From<&'a str> for StringView<'a>` (base.rs lines 70-81):
the view records `s.as_ptr()` and `s.len()`. -/
def StringView.from_str (s : HostSlice) : iree_string_view_t :=
  ⟨s.addr, s.content.length⟩

/-- `impl From<StringView<'a>> for &'a str` (base.rs lines 83-92):
`from_utf8_unchecked_mut(from_raw_parts_mut(view.data, view.size))` —
no validation, the bytes are taken verbatim. -/
def StringView.to_str (mem : Mem) (v : iree_string_view_t) : HostSlice :=
  ⟨v.data, readBytes mem v.data v.size⟩

theorem readBytes_of_coherent (mem : Mem) :
    ∀ (content : List Nat) (addr : Nat),
      (∀ i, (hi : i < content.length) → mem (addr + i) = content.get ⟨i, hi⟩) →
      readBytes mem addr content.length = content := by
  intro content
  induction content with
  | nil => intro addr _; rfl
  | cons b bs ih =>
    intro addr h
    have h0 : mem addr = b := by
      have := h 0 (by simp)
      simpa using this
    have hrest : ∀ i, (hi : i < bs.length) → mem (addr + 1 + i) = bs.get ⟨i, hi⟩ := by
      intro i hi
      have := h (i + 1) (by simpa using Nat.succ_lt_succ hi)
      simpa [Nat.add_comm, Nat.add_assoc, Nat.add_left_comm] using this
    simp [readBytes, h0, ih (addr + 1) hrest]

/-! ## Status model (`src/runtime/base.rs` lines 228-307) -/

/-- `pub struct Status { ctx: sys::iree_status_t }`: a pointer-sized raw
status value. -/
structure Status where
  ctx : Nat
deriving DecidableEq

/-- `pub struct StatusError { status: Status }`. -/
structure StatusError where
  status : Status
deriving DecidableEq

/-- `Status::from_raw` (base.rs lines 233-235). -/
def Status.from_raw (ctx : Nat) : Status := ⟨ctx⟩

/-- `Status::is_ok` (base.rs lines 244-246): `self.ctx as usize == 0`. -/
def Status.is_ok (s : Status) : Bool := s.ctx == 0

/-- `Status::to_result` (base.rs lines 248-254). -/
def Status.to_result (s : Status) : Except StatusError Unit :=
  if s.is_ok then Except.ok () else Except.error ⟨s⟩

/-- Calls the binding layer makes into the native library. -/
inductive NativeCall where
  | status_ignore (ctx : Nat)
deriving DecidableEq

/-- `impl Drop for Status` (base.rs lines 296-304), modelled as the list of
native calls the drop glue emits: `iree_status_ignore(self.ctx)` when the
status is not ok, nothing otherwise. -/
def Status.dropGlue (s : Status) : List NativeCall :=
  if s.is_ok then [] else [.status_ignore s.ctx]

/-! ## Status codes and the error taxonomy (`src/runtime/base.rs` lines 306-379)

The numeric `sys::iree_status_code_e_*` constants come from the FFI crate,
which is not under `src/`; they are modelled from the spec below. -/

/-- Modelled from the spec: the native status code constants
(`sys::iree_status_code_e_*`) live in the FFI crate, not under `src/`.
§4.3 and §6 fix zero as the ok sentinel and list the 17-member code family
in order cancelled..deferred; the static `STATUS_CODES: [usize; 18] =
[0, 1, ..., 17]` table in base.rs line 307, indexed by the code, confirms
the codes are the consecutive values 0..17.  This list gives the 17
documented error codes in the spec order, so `CANCELLED = 1`,
`UNKNOWN = 2`, ..., `DEFERRED = 17`. -/
def documentedStatusCodes : List Nat :=
  [1, 2, 3, 4, 5, 6, 7, 8, 9, 10, 11, 12, 13, 14, 15, 16, 17]

def IREE_STATUS_OK : Nat := 0
def IREE_STATUS_CANCELLED : Nat := 1
def IREE_STATUS_UNKNOWN : Nat := 2
def IREE_STATUS_INVALID_ARGUMENT : Nat := 3
def IREE_STATUS_DEADLINE_EXCEEDED : Nat := 4
def IREE_STATUS_NOT_FOUND : Nat := 5
def IREE_STATUS_ALREADY_EXISTS : Nat := 6
def IREE_STATUS_PERMISSION_DENIED : Nat := 7
def IREE_STATUS_RESOURCE_EXHAUSTED : Nat := 8
def IREE_STATUS_FAILED_PRECONDITION : Nat := 9
def IREE_STATUS_ABORTED : Nat := 10
def IREE_STATUS_OUT_OF_RANGE : Nat := 11
def IREE_STATUS_UNIMPLEMENTED : Nat := 12
def IREE_STATUS_INTERNAL : Nat := 13
def IREE_STATUS_UNAVAILABLE : Nat := 14
def IREE_STATUS_DATA_LOSS : Nat := 15
def IREE_STATUS_UNAUTHENTICATED : Nat := 16
def IREE_STATUS_DEFERRED : Nat := 17

/-- `pub enum StatusErrorKind` (base.rs lines 309-328). -/
inductive StatusErrorKind where
  | Cancelled
  | Unknown
  | InvalidArgument
  | DeadlineExceeded
  | NotFound
  | AlreadyExists
  | PermissionDenied
  | ResourceExhausted
  | FailedPrecondition
  | Aborted
  | OutOfRange
  | Unimplemented
  | Internal
  | Unavailable
  | DataLoss
  | Unauthenticated
  | Deferred
  | UnknownStatus
deriving DecidableEq, Fintype

/-- `impl From<sys::iree_status_code_e> for StatusErrorKind`
(base.rs lines 330-353): a match on the 17 documented constants with a
wildcard arm mapping everything else to `UnknownStatus`. -/
def StatusErrorKind.from_status_code (c : Nat) : StatusErrorKind :=
  if c = IREE_STATUS_CANCELLED then .Cancelled
  else if c = IREE_STATUS_UNKNOWN then .Unknown
  else if c = IREE_STATUS_INVALID_ARGUMENT then .InvalidArgument
  else if c = IREE_STATUS_DEADLINE_EXCEEDED then .DeadlineExceeded
  else if c = IREE_STATUS_NOT_FOUND then .NotFound
  else if c = IREE_STATUS_ALREADY_EXISTS then .AlreadyExists
  else if c = IREE_STATUS_PERMISSION_DENIED then .PermissionDenied
  else if c = IREE_STATUS_RESOURCE_EXHAUSTED then .ResourceExhausted
  else if c = IREE_STATUS_FAILED_PRECONDITION then .FailedPrecondition
  else if c = IREE_STATUS_ABORTED then .Aborted
  else if c = IREE_STATUS_OUT_OF_RANGE then .OutOfRange
  else if c = IREE_STATUS_UNIMPLEMENTED then .Unimplemented
  else if c = IREE_STATUS_INTERNAL then .Internal
  else if c = IREE_STATUS_UNAVAILABLE then .Unavailable
  else if c = IREE_STATUS_DATA_LOSS then .DataLoss
  else if c = IREE_STATUS_UNAUTHENTICATED then .Unauthenticated
  else if c = IREE_STATUS_DEFERRED then .Deferred
  else .UnknownStatus

/-- `impl From<StatusErrorKind> for sys::iree_status_code_t`
(base.rs lines 355-378): each documented variant maps to its constant;
the `UnknownStatus` arm executes an unconditional runtime abort
("Unknown status"), modelled as `none`. -/
def StatusErrorKind.to_status_code : StatusErrorKind → Option Nat
  | .Cancelled => some IREE_STATUS_CANCELLED
  | .Unknown => some IREE_STATUS_UNKNOWN
  | .InvalidArgument => some IREE_STATUS_INVALID_ARGUMENT
  | .DeadlineExceeded => some IREE_STATUS_DEADLINE_EXCEEDED
  | .NotFound => some IREE_STATUS_NOT_FOUND
  | .AlreadyExists => some IREE_STATUS_ALREADY_EXISTS
  | .PermissionDenied => some IREE_STATUS_PERMISSION_DENIED
  | .ResourceExhausted => some IREE_STATUS_RESOURCE_EXHAUSTED
  | .FailedPrecondition => some IREE_STATUS_FAILED_PRECONDITION
  | .Aborted => some IREE_STATUS_ABORTED
  | .OutOfRange => some IREE_STATUS_OUT_OF_RANGE
  | .Unimplemented => some IREE_STATUS_UNIMPLEMENTED
  | .Internal => some IREE_STATUS_INTERNAL
  | .Unavailable => some IREE_STATUS_UNAVAILABLE
  | .DataLoss => some IREE_STATUS_DATA_LOSS
  | .Unauthenticated => some IREE_STATUS_UNAUTHENTICATED
  | .Deferred => some IREE_STATUS_DEFERRED
  | .UnknownStatus => none

/-- Model address of the static `STATUS_CODES: [usize; 18]` array
(base.rs line 307).  The model fixes an arbitrary nonzero, word-aligned
address for this static datum; nothing below depends on the exact value,
only on it being nonzero. -/
def STATUS_CODES_ADDR : Nat := 8

/-- `Status::from_code` (base.rs lines 237-242): converts the kind to its
native code (aborting on `UnknownStatus`, hence the `Option`) and takes the
address of `STATUS_CODES[code]` — `usize` entries are 8 bytes apart. -/
def Status.from_code (k : StatusErrorKind) : Option Status :=
  (StatusErrorKind.to_status_code k).map (fun c => ⟨STATUS_CODES_ADDR + 8 * c⟩)

/-! ## The allocator bridge (`src/runtime/base.rs` lines 116-226)

`rust_allocator_ctl` forwards the native allocator protocol to the Rust
global allocator.  The global allocator (`std::alloc::alloc` /
`alloc_zeroed` / `realloc` / `dealloc`) is modelled as a bump allocator
over an infinite address space that never fails, matching the design in
which allocation failure is not a recoverable status.  Byte cells are
`Option Nat` (`none` = uninitialized); the `usize` header store
`*(ptr as *mut usize) = size` is modelled as a word cell at the block base
(the program only ever accesses the header through that aligned word and
user data through bytes past it).  Paths that are undefined behaviour in
the Rust code (reading a header word that was never written, freeing with
a layout that matches no live block) return `none`. -/

/-- Modelled from the spec: the allocator command constants
(`sys::iree_allocator_command_e_*`) live in the FFI crate, not under
`src/`.  §6 lists the commands in order MALLOC, CALLOC, REALLOC, FREE;
the model numbers them consecutively from zero.  Nothing below depends on
the numeric values, only on their being pairwise distinct. -/
def IREE_ALLOCATOR_COMMAND_MALLOC : Nat := 0
def IREE_ALLOCATOR_COMMAND_CALLOC : Nat := 1
def IREE_ALLOCATOR_COMMAND_REALLOC : Nat := 2
def IREE_ALLOCATOR_COMMAND_FREE : Nat := 3

/-- `const ALIGNMENT: usize = 16` (base.rs line 116). -/
def ALIGNMENT : Nat := 16

/-- `std::isize::MAX as usize` on a 64-bit platform: the maximum signed
addressable size. -/
def ISIZE_MAX : Nat := 2 ^ 63 - 1

/-- State of the Rust global allocator backing the bridge. -/
structure SysHeap where
  /-- Lowest address never handed out (bump pointer). -/
  next : Nat
  /-- `(base, layoutSize)` of the blocks currently allocated. -/
  live : List (Nat × Nat)
  /-- Word cells: the `usize` value stored at an address, `none` if that
  word was never stored. -/
  hdrs : Nat → Option Nat
  /-- Byte cells: `none` = uninitialized or unallocated. -/
  bytes : Nat → Option Nat

/-- The empty heap; addresses start above null. -/
def SysHeap.init : SysHeap :=
  { next := 1, live := [], hdrs := fun _ => none, bytes := fun _ => none }

/-- Blocks handed out by the bump allocator sit below the bump pointer, at
nonzero bases, and have nonzero layout sizes. -/
def SysHeap.wf (h : SysHeap) : Prop :=
  ∀ p ∈ h.live, p.1 + p.2 ≤ h.next ∧ 0 < p.1 ∧ 0 < p.2

/-- Round `n` up to the next multiple of `a` (for `a > 0`). -/
def alignUp (n a : Nat) : Nat := (n + a - 1) / a * a

/-- Overwrite the byte cells of `[base, base + len)` with `v`. -/
def setRange (m : Nat → Option Nat) (base len : Nat) (v : Option Nat) :
    Nat → Option Nat :=
  fun a => if base ≤ a ∧ a < base + len then v else m a

/-- `std::alloc::alloc` / `alloc_zeroed` with a size-`size`, `align`-aligned
layout: returns the fresh block base and the new heap.  A zeroed
allocation reads as `some 0` everywhere in the block, a plain one as
uninitialized. -/
def sysAlloc (h : SysHeap) (size align : Nat) (zeroed : Bool) : Nat × SysHeap :=
  let base := alignUp h.next align
  (base,
    { next := base + size
      live := (base, size) :: h.live
      hdrs := fun a =>
        if a = base then (if zeroed then some 0 else none) else h.hdrs a
      bytes := setRange h.bytes base size (if zeroed then some 0 else none) })

/-- `std::alloc::dealloc` at `base`: the block leaves the live set. -/
def sysDealloc (h : SysHeap) (base : Nat) : SysHeap :=
  { h with live := h.live.filter (fun p => p.1 != base) }

/-- `std::alloc::realloc(base, old layout, newLayout)`: modelled as a fresh
allocation of `newLayout` bytes, a copy of the first
`min oldLayout newLayout` bytes of the old block (the old block is
untouched by the fresh allocation, so the copy reads from the pre-state),
including the header word at the base, followed by deallocation of the old
block. -/
def sysRealloc (h : SysHeap) (base oldLayout newLayout : Nat) : Nat × SysHeap :=
  let a := sysAlloc h newLayout ALIGNMENT false
  let newBase := a.1
  let n := min oldLayout newLayout
  let h2 : SysHeap :=
    { a.2 with
      bytes := fun x =>
        if newBase ≤ x ∧ x < newBase + n then h.bytes (base + (x - newBase))
        else a.2.bytes x
      hdrs := fun x => if x = newBase then h.hdrs base else a.2.hdrs x }
  (newBase, sysDealloc h2 base)

/-- Result of one invocation of an allocator control function: the returned
`iree_status_t` raw value, the value of `*inout_ptr` after the call, and
the heap. -/
structure CtlResult where
  status : Nat
  outPtr : Nat
  heap : SysHeap

/-- The MALLOC arm of `rust_allocator_ctl` (base.rs lines 146-162), shared
with CALLOC (lines 163-179, `zeroed = true`) and with the null-pointer
REALLOC delegation (lines 181-189, which re-enters the control function
with the MALLOC command): reject sizes above `ISIZE_MAX` with an
out-of-range status, otherwise allocate `size + ALIGNMENT` bytes at
`ALIGNMENT`-byte alignment, store the requested size in the header word at
the block base, and hand out the pointer just past the header. -/
def rust_allocator_alloc_arm (h : SysHeap) (byte_length : Nat) (zeroed : Bool)
    (inout_ptr : Nat) : Option CtlResult :=
  if byte_length > ISIZE_MAX then
    (Status.from_code .OutOfRange).map (fun st => ⟨st.ctx, inout_ptr, h⟩)
  else
    let a := sysAlloc h (byte_length + ALIGNMENT) ALIGNMENT zeroed
    let h2 := { a.2 with
      hdrs := fun x => if x = a.1 then some byte_length else a.2.hdrs x }
    some ⟨0, a.1 + ALIGNMENT, h2⟩

/-- `rust_allocator_ctl` (base.rs lines 138-226).  `byte_length` is the
`byte_length` field of the `iree_allocator_alloc_params_t` that `params`
points to (unread by FREE); `inout_ptr` is the value of `*inout_ptr` on
entry, with `0` as the null pointer. -/
def rust_allocator_ctl (h : SysHeap) (command byte_length inout_ptr : Nat) :
    Option CtlResult :=
  if command = IREE_ALLOCATOR_COMMAND_MALLOC then
    rust_allocator_alloc_arm h byte_length false inout_ptr
  else if command = IREE_ALLOCATOR_COMMAND_CALLOC then
    rust_allocator_alloc_arm h byte_length true inout_ptr
  else if command = IREE_ALLOCATOR_COMMAND_REALLOC then
    if inout_ptr = 0 then
      -- realloc of null is malloc
      rust_allocator_alloc_arm h byte_length false inout_ptr
    else
      let ptr := inout_ptr - ALIGNMENT
      match h.hdrs ptr with
      | none => none
      | some old_size =>
        if byte_length > ISIZE_MAX then
          (Status.from_code .OutOfRange).map (fun st => ⟨st.ctx, inout_ptr, h⟩)
        else if (ptr, old_size + ALIGNMENT) ∈ h.live then
          let r := sysRealloc h ptr (old_size + ALIGNMENT)
            (byte_length + ALIGNMENT)
          let h2 := { r.2 with
            hdrs := fun x => if x = r.1 then some byte_length else r.2.hdrs x }
          some ⟨0, r.1 + ALIGNMENT, h2⟩
        else none
  else if command = IREE_ALLOCATOR_COMMAND_FREE then
    let ptr := inout_ptr - ALIGNMENT
    match h.hdrs ptr with
    | none => none
    | some size =>
      if (ptr, size + ALIGNMENT) ∈ h.live then
        some ⟨0, inout_ptr, sysDealloc h ptr⟩
      else none
  else
    (Status.from_code .Unimplemented).map (fun st => ⟨st.ctx, inout_ptr, h⟩)

/-! ## The resource ownership graph (`src/runtime/api.rs`)

What the Rust borrow checker accepts is determined by which lasting borrows
each wrapper value's type carries.  These flags are read off the type and
struct definitions in api.rs; a small trace semantics then says which
create/drop/use sequences the type signatures let a caller write. -/

/-- `Instance::try_create_default_device` (api.rs lines 80-94) returns
`Result<super::hal::Device, RuntimeError>` and builds the device as the
struct literal `super::hal::Device { ctx: out_ptr }` (line 93).  A struct
literal must name every field, so `Device` has exactly the raw-pointer
field `ctx`; a struct whose fields use no lifetime cannot have a lifetime
parameter, so the `Device` value holds no borrow of the `Instance` — the
`&self` borrow taken by `try_create_default_device` ends when the call
returns. -/
def deviceBorrowsInstance : Bool := false

/-- `Session<'a, 'b>` stores `_instance: &'a Instance`
(api.rs line 128), a lasting shared borrow of the instance. -/
def sessionBorrowsInstance : Bool := true

/-- `Session<'a, 'b>` stores
`device_marker: std::marker::PhantomData<&'b mut super::hal::Device>`
(api.rs line 129), a lasting borrow of the device. -/
def sessionBorrowsDevice : Bool := true

/-- Events a caller of the api.rs surface can write: creating, dropping
(releasing) and using (calling any method on) each wrapper. -/
inductive ResOp where
  | create_instance
  | drop_instance
  | create_device
  | drop_device
  | use_device
  | create_session
  | drop_session
  | use_session
deriving DecidableEq

/-- Which wrapper values are alive in the caller's scope. -/
structure ResState where
  instAlive : Bool
  devAlive : Bool
  sessAlive : Bool
deriving DecidableEq

/-- Some live value's type carries a borrow of the instance. -/
def ResState.borrowsInst (s : ResState) : Bool :=
  (s.devAlive && deviceBorrowsInstance) || (s.sessAlive && sessionBorrowsInstance)

/-- Some live value's type carries a borrow of the device. -/
def ResState.borrowsDev (s : ResState) : Bool :=
  s.sessAlive && sessionBorrowsDevice

/-- One step of the borrow discipline the Rust signatures impose: `none`
means the compiler rejects the program at that event.  A value can be
created from live ancestors (`try_create_default_device` takes `&self` on
the instance, `Session::create_with_device` takes the instance and the
device), used while alive, and dropped only while no other live value's
type holds a borrow of it. -/
def resStep : ResState → ResOp → Option ResState
  | s, .create_instance =>
    if s.instAlive then none else some { s with instAlive := true }
  | s, .drop_instance =>
    if s.instAlive && !s.borrowsInst then some { s with instAlive := false }
    else none
  | s, .create_device =>
    if s.instAlive && !s.devAlive then some { s with devAlive := true } else none
  | s, .drop_device =>
    if s.devAlive && !s.borrowsDev then some { s with devAlive := false }
    else none
  | s, .use_device => if s.devAlive then some s else none
  | s, .create_session =>
    if s.instAlive && s.devAlive && !s.sessAlive then
      some { s with sessAlive := true }
    else none
  | s, .drop_session =>
    if s.sessAlive then some { s with sessAlive := false } else none
  | s, .use_session => if s.sessAlive then some s else none

/-- A sequence of events is expressible (borrow-checks) when every step is
accepted starting from the empty scope. -/
def checkTrace (ops : List ResOp) : Bool :=
  (ops.foldlM resStep ⟨false, false, false⟩).isSome

/-! ## `Session::append_module_from_file` (`src/runtime/api.rs` lines 197-208) -/

/-- A continuation byte: `0x80..=0xBF`. -/
def utf8ContByte (b : Nat) : Bool := 0x80 ≤ b && b ≤ 0xBF

/-- UTF-8 validity of a byte sequence, as checked by
`std::str::from_utf8` (and hence by `Path::to_str`): one-byte sequences
`0x00..=0x7F`; two-byte lead `0xC2..=0xDF`; three-byte leads `0xE0`
(second byte `0xA0..=0xBF`), `0xE1..=0xEC`/`0xEE`/`0xEF` (second byte a
continuation), `0xED` (second byte `0x80..=0x9F`, excluding surrogates);
four-byte leads `0xF0` (second byte `0x90..=0xBF`), `0xF1..=0xF3`
(continuation), `0xF4` (second byte `0x80..=0x8F`); everything else —
stray continuations, overlong leads `0xC0`/`0xC1`, leads above `0xF4`,
truncated sequences — is invalid. -/
def utf8Valid : List Nat → Bool
  | [] => true
  | b :: rest =>
    if b ≤ 0x7F then utf8Valid rest
    else if 0xC2 ≤ b && b ≤ 0xDF then
      match rest with
      | c1 :: rest1 => utf8ContByte c1 && utf8Valid rest1
      | [] => false
    else if b = 0xE0 then
      match rest with
      | c1 :: c2 :: rest2 =>
        (0xA0 ≤ c1 && c1 ≤ 0xBF) && utf8ContByte c2 && utf8Valid rest2
      | _ => false
    else if (0xE1 ≤ b && b ≤ 0xEC) || b = 0xEE || b = 0xEF then
      match rest with
      | c1 :: c2 :: rest2 =>
        utf8ContByte c1 && utf8ContByte c2 && utf8Valid rest2
      | _ => false
    else if b = 0xED then
      match rest with
      | c1 :: c2 :: rest2 =>
        (0x80 ≤ c1 && c1 ≤ 0x9F) && utf8ContByte c2 && utf8Valid rest2
      | _ => false
    else if b = 0xF0 then
      match rest with
      | c1 :: c2 :: c3 :: rest3 =>
        (0x90 ≤ c1 && c1 ≤ 0xBF) && utf8ContByte c2 && utf8ContByte c3 &&
          utf8Valid rest3
      | _ => false
    else if 0xF1 ≤ b && b ≤ 0xF3 then
      match rest with
      | c1 :: c2 :: c3 :: rest3 =>
        utf8ContByte c1 && utf8ContByte c2 && utf8ContByte c3 &&
          utf8Valid rest3
      | _ => false
    else if b = 0xF4 then
      match rest with
      | c1 :: c2 :: c3 :: rest3 =>
        (0x80 ≤ c1 && c1 ≤ 0x8F) && utf8ContByte c2 && utf8ContByte c3 &&
          utf8Valid rest3
      | _ => false
    else false

/-- `Path::to_str` on the path's byte representation: `some` exactly when
the bytes are valid UTF-8. -/
def pathToStrBytes (p : List Nat) : Option (List Nat) :=
  if utf8Valid p then some p else none

/-- `CString::new`: fails (with `NulError`) exactly when the bytes contain
a NUL byte. -/
def cStringNew (s : List Nat) : Option (List Nat) :=
  if s.contains 0 then none else some s

/-- `RuntimeError` as used in api.rs: wraps a `StatusError`
(`RuntimeError::StatusError(e)`). -/
inductive RuntimeError where
  | StatusError (e : StatusError)
deriving DecidableEq

/-- Outcome of running a function that may abort the thread by panicking. -/
inductive ExecOutcome (α : Type) where
  | panicked
  | returned (a : α)
deriving DecidableEq

/-- `Session::append_module_from_file` (api.rs lines 197-208):
`CString::new(path.to_str().unwrap()).unwrap()` — both `unwrap`s panic on
`None`/`Err` — then the native append entry point (whose returned raw
status is the parameter `native_status`), routed through
`Status::to_result` and wrapped in `RuntimeError::StatusError`.  The path
is given by its byte representation. -/
def append_module_from_file (native_status : Nat) (p : List Nat) :
    ExecOutcome (Except RuntimeError Unit) :=
  match pathToStrBytes p with
  | none => .panicked
  | some s =>
    match cStringNew s with
    | none => .panicked
    | some _ =>
      .returned ((Status.from_raw native_status).to_result.mapError
        RuntimeError.StatusError)

/-! ## Helper lemmas for the allocator bridge -/

theorem alignUp16_mod (n : Nat) : alignUp n ALIGNMENT % ALIGNMENT = 0 := by
  unfold alignUp ALIGNMENT
  omega

theorem alignUp16_ge (n : Nat) : n ≤ alignUp n ALIGNMENT := by
  unfold alignUp ALIGNMENT
  omega

/-- Characterization of the shared MALLOC/CALLOC arm below the size bound:
it succeeds with the fresh block's user pointer, records the requested
size in the header word at the block base, registers the
`byte_length + ALIGNMENT` block as live, and fills the block's bytes
(zeroed for CALLOC, uninitialized for MALLOC). -/
theorem alloc_arm_ok (h : SysHeap) (bl : Nat) (z : Bool) (p : Nat)
    (hbl : ¬ bl > ISIZE_MAX) :
    ∃ r, rust_allocator_alloc_arm h bl z p = some r ∧
      r.status = 0 ∧
      r.outPtr = alignUp h.next ALIGNMENT + ALIGNMENT ∧
      r.heap.next = alignUp h.next ALIGNMENT + (bl + ALIGNMENT) ∧
      r.heap.live = (alignUp h.next ALIGNMENT, bl + ALIGNMENT) :: h.live ∧
      (∀ x, r.heap.hdrs x =
        if x = alignUp h.next ALIGNMENT then some bl else h.hdrs x) ∧
      (∀ x, r.heap.bytes x =
        setRange h.bytes (alignUp h.next ALIGNMENT) (bl + ALIGNMENT)
          (if z then some 0 else none) x) := by
  unfold rust_allocator_alloc_arm sysAlloc
  rw [if_neg hbl]
  refine ⟨_, rfl, rfl, rfl, rfl, rfl, ?_, fun _ => rfl⟩
  intro x
  by_cases hx : x = alignUp h.next ALIGNMENT <;> simp [hx]

/-- The shared MALLOC/CALLOC arm above the size bound returns the
out-of-range status, touches nothing, and does not crash. -/
theorem alloc_arm_overflow (h : SysHeap) (bl : Nat) (z : Bool) (p : Nat)
    (hbl : bl > ISIZE_MAX) :
    rust_allocator_alloc_arm h bl z p =
      some ⟨STATUS_CODES_ADDR + 8 * IREE_STATUS_OUT_OF_RANGE, p, h⟩ := by
  unfold rust_allocator_alloc_arm
  rw [if_pos hbl]
  rfl

theorem from_code_map_oor (q : Nat) (hp : SysHeap) :
    (Status.from_code .OutOfRange).map (fun st => CtlResult.mk st.ctx q hp) =
      some ⟨STATUS_CODES_ADDR + 8 * IREE_STATUS_OUT_OF_RANGE, q, hp⟩ := rfl

theorem from_code_map_unimpl (q : Nat) (hp : SysHeap) :
    (Status.from_code .Unimplemented).map (fun st => CtlResult.mk st.ctx q hp) =
      some ⟨STATUS_CODES_ADDR + 8 * IREE_STATUS_UNIMPLEMENTED, q, hp⟩ := rfl

/-- The three commands that carry a size request. -/
def isAllocCommand (cmd : Nat) : Prop :=
  cmd = IREE_ALLOCATOR_COMMAND_MALLOC ∨ cmd = IREE_ALLOCATOR_COMMAND_CALLOC ∨
    cmd = IREE_ALLOCATOR_COMMAND_REALLOC

/-- The four commands the bridge recognizes. -/
def isKnownCommand (cmd : Nat) : Prop :=
  isAllocCommand cmd ∨ cmd = IREE_ALLOCATOR_COMMAND_FREE

/-- Status characterization of every completed invocation of
`rust_allocator_ctl`: an allocating command over the size bound returns
the out-of-range status, an allocating command within the bound and FREE
return zero, and an unrecognized command returns the unimplemented
status. -/
theorem ctl_status_cases (h : SysHeap) (cmd bl p : Nat) (r : CtlResult)
    (hr : rust_allocator_ctl h cmd bl p = some r) :
    (isAllocCommand cmd ∧ bl > ISIZE_MAX ∧
      r.status = STATUS_CODES_ADDR + 8 * IREE_STATUS_OUT_OF_RANGE) ∨
    (((isAllocCommand cmd ∧ ¬ bl > ISIZE_MAX) ∨
        cmd = IREE_ALLOCATOR_COMMAND_FREE) ∧ r.status = 0) ∨
    (¬ isKnownCommand cmd ∧
      r.status = STATUS_CODES_ADDR + 8 * IREE_STATUS_UNIMPLEMENTED) := by
  by_cases h0 : cmd = IREE_ALLOCATOR_COMMAND_MALLOC
  · subst h0
    unfold rust_allocator_ctl at hr
    rw [if_pos rfl] at hr
    by_cases hbl : bl > ISIZE_MAX
    · rw [alloc_arm_overflow h bl false p hbl] at hr
      injection hr with hre
      exact Or.inl ⟨Or.inl rfl, hbl, by rw [← hre]⟩
    · obtain ⟨r', hr', hst', _⟩ := alloc_arm_ok h bl false p hbl
      rw [hr'] at hr
      injection hr with hre
      exact Or.inr (Or.inl ⟨Or.inl ⟨Or.inl rfl, hbl⟩, by rw [← hre]; exact hst'⟩)
  by_cases h1 : cmd = IREE_ALLOCATOR_COMMAND_CALLOC
  · subst h1
    unfold rust_allocator_ctl at hr
    rw [if_neg (by decide), if_pos rfl] at hr
    by_cases hbl : bl > ISIZE_MAX
    · rw [alloc_arm_overflow h bl true p hbl] at hr
      injection hr with hre
      exact Or.inl ⟨Or.inr (Or.inl rfl), hbl, by rw [← hre]⟩
    · obtain ⟨r', hr', hst', _⟩ := alloc_arm_ok h bl true p hbl
      rw [hr'] at hr
      injection hr with hre
      exact Or.inr (Or.inl ⟨Or.inl ⟨Or.inr (Or.inl rfl), hbl⟩,
        by rw [← hre]; exact hst'⟩)
  by_cases h2 : cmd = IREE_ALLOCATOR_COMMAND_REALLOC
  · subst h2
    unfold rust_allocator_ctl at hr
    rw [if_neg (by decide), if_neg (by decide), if_pos rfl] at hr
    by_cases hp : p = 0
    · rw [if_pos hp] at hr
      by_cases hbl : bl > ISIZE_MAX
      · rw [alloc_arm_overflow h bl false p hbl] at hr
        injection hr with hre
        exact Or.inl ⟨Or.inr (Or.inr rfl), hbl, by rw [← hre]⟩
      · obtain ⟨r', hr', hst', _⟩ := alloc_arm_ok h bl false p hbl
        rw [hr'] at hr
        injection hr with hre
        exact Or.inr (Or.inl ⟨Or.inl ⟨Or.inr (Or.inr rfl), hbl⟩,
          by rw [← hre]; exact hst'⟩)
    · rw [if_neg hp] at hr
      cases hh : h.hdrs (p - ALIGNMENT) with
      | none =>
        simp only [hh] at hr
        exact absurd hr (by simp)
      | some old =>
        simp only [hh] at hr
        by_cases hbl : bl > ISIZE_MAX
        · rw [if_pos hbl, from_code_map_oor] at hr
          injection hr with hre
          exact Or.inl ⟨Or.inr (Or.inr rfl), hbl, by rw [← hre]⟩
        · rw [if_neg hbl] at hr
          by_cases hl : (p - ALIGNMENT, old + ALIGNMENT) ∈ h.live
          · rw [if_pos hl] at hr
            injection hr with hre
            exact Or.inr (Or.inl ⟨Or.inl ⟨Or.inr (Or.inr rfl), hbl⟩,
              by rw [← hre]⟩)
          · rw [if_neg hl] at hr
            exact absurd hr (by simp)
  by_cases h3 : cmd = IREE_ALLOCATOR_COMMAND_FREE
  · subst h3
    unfold rust_allocator_ctl at hr
    rw [if_neg (by decide), if_neg (by decide), if_neg (by decide),
      if_pos rfl] at hr
    cases hh : h.hdrs (p - ALIGNMENT) with
    | none =>
      simp only [hh] at hr
      exact absurd hr (by simp)
    | some sz =>
      simp only [hh] at hr
      by_cases hl : (p - ALIGNMENT, sz + ALIGNMENT) ∈ h.live
      · rw [if_pos hl] at hr
        injection hr with hre
        exact Or.inr (Or.inl ⟨Or.inr rfl, by rw [← hre]⟩)
      · rw [if_neg hl] at hr
        exact absurd hr (by simp)
  · unfold rust_allocator_ctl at hr
    rw [if_neg h0, if_neg h1, if_neg h2, if_neg h3, from_code_map_unimpl] at hr
    injection hr with hre
    refine Or.inr (Or.inr ⟨?_, by rw [← hre]⟩)
    intro hk
    rcases hk with (hc | hc | hc) | hc
    · exact h0 hc
    · exact h1 hc
    · exact h2 hc
    · exact h3 hc

/-- What C2 asserts of an invocation of the bridging allocator control
function that completed (returned, rather than hitting undefined
behaviour): an error status comes back exactly on the two error paths —
a size request above the platform maximum on an allocating command
(yielding the out-of-range status) or an unrecognized command (yielding
the unimplemented status) — and every other completed path returns the ok
status zero.  The final two conjuncts are spec item (e): requesting
`ISIZE_MAX + 1` bytes completes with the out-of-range status, never a
crash. -/
def CtlErrorSpec (h : SysHeap) (cmd bl p : Nat) (r : CtlResult) : Prop :=
  (r.status ≠ 0 ↔
    (isAllocCommand cmd ∧ bl > ISIZE_MAX) ∨ ¬ isKnownCommand cmd) ∧
  (isAllocCommand cmd ∧ bl > ISIZE_MAX →
    some (Status.mk r.status) = Status.from_code .OutOfRange) ∧
  (¬ isKnownCommand cmd →
    some (Status.mk r.status) = Status.from_code .Unimplemented) ∧
  (isKnownCommand cmd → ¬ bl > ISIZE_MAX → r.status = 0) ∧
  rust_allocator_ctl h IREE_ALLOCATOR_COMMAND_MALLOC (ISIZE_MAX + 1) p =
    some ⟨STATUS_CODES_ADDR + 8 * IREE_STATUS_OUT_OF_RANGE, p, h⟩ ∧
  rust_allocator_ctl h IREE_ALLOCATOR_COMMAND_CALLOC (ISIZE_MAX + 1) p =
    some ⟨STATUS_CODES_ADDR + 8 * IREE_STATUS_OUT_OF_RANGE, p, h⟩

/-- C2.  For every completed invocation of the bridging allocator control
function, an error status is returned only on the two error paths: a
size-overflow request yields the out-of-range status (never a crash, per
the last two conjuncts of the spec) and an unrecognized command yields the
unimplemented status; every other completed path returns the ok status. -/
theorem c2_allocator_ctl_error_paths (h : SysHeap) (cmd bl p : Nat)
    (r : CtlResult) (hr : rust_allocator_ctl h cmd bl p = some r) :
    CtlErrorSpec h cmd bl p r := by
  have hoom : rust_allocator_ctl h IREE_ALLOCATOR_COMMAND_MALLOC
      (ISIZE_MAX + 1) p =
      some ⟨STATUS_CODES_ADDR + 8 * IREE_STATUS_OUT_OF_RANGE, p, h⟩ := by
    unfold rust_allocator_ctl
    rw [if_pos rfl]
    exact alloc_arm_overflow h _ false p (by omega)
  have hooc : rust_allocator_ctl h IREE_ALLOCATOR_COMMAND_CALLOC
      (ISIZE_MAX + 1) p =
      some ⟨STATUS_CODES_ADDR + 8 * IREE_STATUS_OUT_OF_RANGE, p, h⟩ := by
    unfold rust_allocator_ctl
    rw [if_neg (by decide), if_pos rfl]
    exact alloc_arm_overflow h _ true p (by omega)
  have hknown_of_alloc : isAllocCommand cmd → isKnownCommand cmd := Or.inl
  have hdistinct : cmd = IREE_ALLOCATOR_COMMAND_FREE → ¬ isAllocCommand cmd := by
    intro hc ha
    subst hc
    rcases ha with hc | hc | hc <;> exact absurd hc (by decide)
  rcases ctl_status_cases h cmd bl p r hr with
    ⟨ha, hbl, hst⟩ | ⟨hok, hst⟩ | ⟨hk, hst⟩
  · refine ⟨?_, fun _ => by rw [hst]; rfl,
      fun hk => absurd (hknown_of_alloc ha) hk,
      fun _ hnbl => absurd hbl hnbl, hoom, hooc⟩
    constructor
    · intro _
      exact Or.inl ⟨ha, hbl⟩
    · intro _
      rw [hst]
      decide
  · refine ⟨?_, ?_, ?_, fun _ _ => hst, hoom, hooc⟩
    · rw [hst]
      simp only [ne_eq, not_true_eq_false, false_iff]
      intro hcontra
      rcases hcontra with ⟨ha, hbl⟩ | hk
      · rcases hok with ⟨_, hnbl⟩ | hfree
        · exact hnbl hbl
        · exact (hdistinct hfree) ha
      · rcases hok with ⟨ha, _⟩ | hfree
        · exact hk (hknown_of_alloc ha)
        · exact hk (Or.inr hfree)
    · rintro ⟨ha, hbl⟩
      rcases hok with ⟨_, hnbl⟩ | hfree
      · exact absurd hbl hnbl
      · exact absurd ha (hdistinct hfree)
    · intro hk
      rcases hok with ⟨ha, _⟩ | hfree
      · exact absurd (hknown_of_alloc ha) hk
      · exact absurd (Or.inr hfree) hk
  · refine ⟨?_, ?_, fun _ => by rw [hst]; rfl, ?_, hoom, hooc⟩
    · rw [hst]
      constructor
      · intro _
        exact Or.inr hk
      · intro _
        decide
    · rintro ⟨ha, _⟩
      exact absurd (hknown_of_alloc ha) hk
    · intro hkk
      exact absurd hkk hk

theorem c2_allocator_ctl_error_paths_witness :
    rust_allocator_ctl SysHeap.init 7 0 0 =
      some ⟨STATUS_CODES_ADDR + 8 * IREE_STATUS_UNIMPLEMENTED, 0,
        SysHeap.init⟩ ∧
    CtlErrorSpec SysHeap.init 7 0 0
      ⟨STATUS_CODES_ADDR + 8 * IREE_STATUS_UNIMPLEMENTED, 0, SysHeap.init⟩ :=
  ⟨rfl, c2_allocator_ctl_error_paths SysHeap.init 7 0 0 _ rfl⟩

/-! ## Theorems -/

/-- C1.  The claim states that a device obtained from an instance holds a
borrow of the instance for its entire existence, so that
create-device / release-instance / use-device is rejected at compile time.
On the code this fails: the `Device` value returned by
`Instance::try_create_default_device` is a plain struct holding only the
raw pointer (`deviceBorrowsInstance = false`), so the trace borrow-checks
and is expressible.  The third conjunct shows the session analogue is
rejected, since `Session` does hold the `&'a Instance` borrow — so the
model is not trivially permissive. -/
theorem c1_device_use_after_instance_release_expressible :
    checkTrace
      [.create_instance, .create_device, .drop_instance, .use_device] = true ∧
    deviceBorrowsInstance = false ∧
    checkTrace
      [.create_instance, .create_device, .create_session, .drop_instance]
      = false := by
  decide

/-- What C3 asserts of an in-range malloc request of size `s`: the call
succeeds, the returned user pointer is `ALIGNMENT`-aligned and sits
`ALIGNMENT` bytes past the `ALIGNMENT`-aligned base of a live
`s + ALIGNMENT`-byte block whose header word holds the requested size `s`;
and a subsequent free of that pointer succeeds, recovering the size and
deallocating the full header-adjusted block (the live set returns to what
it was). -/
def MallocSpec (h : SysHeap) (s p : Nat) : Prop :=
  ∃ r, rust_allocator_ctl h IREE_ALLOCATOR_COMMAND_MALLOC s p = some r ∧
    r.status = 0 ∧
    r.outPtr % ALIGNMENT = 0 ∧
    (r.outPtr - ALIGNMENT) % ALIGNMENT = 0 ∧
    ALIGNMENT ≤ r.outPtr ∧
    r.heap.hdrs (r.outPtr - ALIGNMENT) = some s ∧
    (r.outPtr - ALIGNMENT, s + ALIGNMENT) ∈ r.heap.live ∧
    (∃ r2, rust_allocator_ctl r.heap IREE_ALLOCATOR_COMMAND_FREE 0 r.outPtr
        = some r2 ∧ r2.status = 0 ∧ r2.heap.live = h.live)

/-- C3.  For every in-range malloc request of size `s` on a well-formed
heap, the bridging allocator allocates `s + ALIGNMENT` bytes at
`ALIGNMENT`-byte alignment, writes `s` into the hidden header at the block
base, returns the pointer offset past the header (hence
`ALIGNMENT`-aligned), and free recovers that exact size from the header
and deallocates the whole block. -/
theorem c3_malloc_header_alignment (h : SysHeap) (s p : Nat)
    (hs : s ≤ ISIZE_MAX) (hwf : SysHeap.wf h) : MallocSpec h s p := by
  obtain ⟨r, hr, hst, hout, hnext, hlive, hhdrs, hbytes⟩ :=
    alloc_arm_ok h s false p (by omega)
  have hctl : rust_allocator_ctl h IREE_ALLOCATOR_COMMAND_MALLOC s p
      = some r := by
    unfold rust_allocator_ctl
    rw [if_pos rfl]
    exact hr
  have hmod := alignUp16_mod h.next
  have hge := alignUp16_ge h.next
  have hsub : r.outPtr - ALIGNMENT = alignUp h.next ALIGNMENT := by omega
  have hhdr_base : r.heap.hdrs (r.outPtr - ALIGNMENT) = some s := by
    rw [hsub, hhdrs, if_pos rfl]
  have hmem : (r.outPtr - ALIGNMENT, s + ALIGNMENT) ∈ r.heap.live := by
    rw [hsub, hlive]
    exact List.mem_cons_self _ _
  have hfree : rust_allocator_ctl r.heap IREE_ALLOCATOR_COMMAND_FREE 0 r.outPtr
      = some ⟨0, r.outPtr, sysDealloc r.heap (r.outPtr - ALIGNMENT)⟩ := by
    unfold rust_allocator_ctl
    rw [if_neg (by decide), if_neg (by decide), if_neg (by decide),
      if_pos rfl]
    simp only [hhdr_base]
    rw [if_pos hmem]
  refine ⟨r, hctl, hst, by simp only [ALIGNMENT] at hout hmod ⊢; omega,
    by simp only [ALIGNMENT] at hout hmod ⊢; omega,
    by simp only [ALIGNMENT] at hout hmod ⊢; omega, hhdr_base, hmem,
    ⟨_, hfree, rfl, ?_⟩⟩
  show (sysDealloc r.heap (r.outPtr - ALIGNMENT)).live = h.live
  unfold sysDealloc
  rw [hsub, hlive]
  have hne : ∀ b ∈ h.live,
      (b.1 != alignUp h.next ALIGNMENT) = true := by
    intro b hb
    obtain ⟨h1, h2, h3⟩ := hwf b hb
    simp only [bne_iff_ne, ne_eq]
    omega
  rw [List.filter_cons, if_neg (by simp)]
  exact List.filter_eq_self.mpr hne

/-- What C4 asserts of an in-range calloc request of size `s`: it behaves
identically to malloc — same status, same returned pointer, same bump
pointer, same live set, same header cells, and byte cells agreeing
everywhere outside the fresh block — except that every byte of the
`s`-byte user region reads as zero. -/
def CallocSpec (h : SysHeap) (s p : Nat) : Prop :=
  ∃ rm rc,
    rust_allocator_ctl h IREE_ALLOCATOR_COMMAND_MALLOC s p = some rm ∧
    rust_allocator_ctl h IREE_ALLOCATOR_COMMAND_CALLOC s p = some rc ∧
    rc.status = rm.status ∧
    rc.outPtr = rm.outPtr ∧
    rc.heap.next = rm.heap.next ∧
    rc.heap.live = rm.heap.live ∧
    (∀ x, rc.heap.hdrs x = rm.heap.hdrs x) ∧
    (∀ x, x < rm.outPtr - ALIGNMENT ∨ rm.outPtr + s ≤ x →
      rc.heap.bytes x = rm.heap.bytes x) ∧
    (∀ i, i < s → rc.heap.bytes (rc.outPtr + i) = some 0)

/-- C4.  For every in-range calloc request, the bridging allocator behaves
identically to malloc except that the returned memory is zero-filled:
every byte of the `s`-byte user region reads as zero before first
write. -/
theorem c4_calloc_zero_fill (h : SysHeap) (s p : Nat)
    (hs : s ≤ ISIZE_MAX) : CallocSpec h s p := by
  obtain ⟨rm, hrm, hstm, houtm, hnextm, hlivem, hhdrsm, hbytesm⟩ :=
    alloc_arm_ok h s false p (by omega)
  obtain ⟨rc, hrc, hstc, houtc, hnextc, hlivec, hhdrsc, hbytesc⟩ :=
    alloc_arm_ok h s true p (by omega)
  have hctlm : rust_allocator_ctl h IREE_ALLOCATOR_COMMAND_MALLOC s p
      = some rm := by
    unfold rust_allocator_ctl
    rw [if_pos rfl]
    exact hrm
  have hctlc : rust_allocator_ctl h IREE_ALLOCATOR_COMMAND_CALLOC s p
      = some rc := by
    unfold rust_allocator_ctl
    rw [if_neg (by decide), if_pos rfl]
    exact hrc
  refine ⟨rm, rc, hctlm, hctlc, hstc.trans hstm.symm, houtc.trans houtm.symm,
    hnextc.trans hnextm.symm, hlivec.trans hlivem.symm, ?_, ?_, ?_⟩
  · intro x
    rw [hhdrsc x, hhdrsm x]
  · intro x hx
    rw [hbytesc x, hbytesm x]
    unfold setRange
    rw [if_neg (by simp only [ALIGNMENT] at *; omega),
      if_neg (by simp only [ALIGNMENT] at *; omega)]
  · intro i hi
    rw [hbytesc (rc.outPtr + i)]
    unfold setRange
    rw [if_pos (by simp only [ALIGNMENT] at *; omega)]
    rfl

/-- What C5 asserts of realloc.  First, a realloc whose incoming pointer is
null behaves as malloc for every size (the code re-enters the control
function with the MALLOC command).  Second, for a live block at `base`
whose header holds `old` and an in-range `new`: the call succeeds, reads
the old size from the header, moves the block, rewrites the header of the
new block with `new`, registers the new `new + ALIGNMENT` block and
retires every block at `base`, preserves the first `min old new` user
bytes, and returns the adjusted (offset, `ALIGNMENT`-aligned) pointer. -/
def ReallocSpec (h : SysHeap) (base old new : Nat) : Prop :=
  (∀ bl, rust_allocator_ctl h IREE_ALLOCATOR_COMMAND_REALLOC bl 0 =
    rust_allocator_ctl h IREE_ALLOCATOR_COMMAND_MALLOC bl 0) ∧
  ∃ r, rust_allocator_ctl h IREE_ALLOCATOR_COMMAND_REALLOC new
      (base + ALIGNMENT) = some r ∧
    r.status = 0 ∧
    r.outPtr % ALIGNMENT = 0 ∧
    r.heap.hdrs (r.outPtr - ALIGNMENT) = some new ∧
    (r.outPtr - ALIGNMENT, new + ALIGNMENT) ∈ r.heap.live ∧
    (∀ sz, (base, sz) ∉ r.heap.live) ∧
    (∀ i, i < min old new →
      r.heap.bytes (r.outPtr + i) = h.bytes (base + ALIGNMENT + i))

/-- C5.  For every realloc request: a null incoming pointer delegates to
malloc; otherwise the hidden header supplies the old size, the new size is
validated against the overflow bound, the header-adjusted block is
reallocated preserving the first `min(old_size, new_size)` bytes of user
data, the header is rewritten with the new size, and the adjusted (offset)
pointer is returned. -/
theorem c5_realloc (h : SysHeap) (base old new : Nat) (hwf : SysHeap.wf h)
    (hh : h.hdrs base = some old) (hl : (base, old + ALIGNMENT) ∈ h.live)
    (hn : new ≤ ISIZE_MAX) : ReallocSpec h base old new := by
  obtain ⟨hble, h0base, h0sz⟩ := hwf _ hl
  have hge := alignUp16_ge h.next
  have hmod := alignUp16_mod h.next
  have hbase_lt : base < alignUp h.next ALIGNMENT := by omega
  refine ⟨fun bl => rfl, ?_⟩
  unfold rust_allocator_ctl
  rw [if_neg (by decide), if_neg (by decide), if_pos rfl,
    if_neg (by simp only [ALIGNMENT]; omega)]
  simp only [Nat.add_sub_cancel, hh]
  rw [if_neg (by omega), if_pos hl]
  refine ⟨_, rfl, rfl, ?_, ?_, ?_, ?_, ?_⟩
  · simp only [sysRealloc, sysAlloc, sysDealloc, ALIGNMENT] at *
    omega
  · simp only [sysRealloc, sysAlloc, sysDealloc, Nat.add_sub_cancel]
    simp
  · simp only [sysRealloc, sysAlloc, sysDealloc, Nat.add_sub_cancel]
    refine List.mem_filter.mpr ⟨List.mem_cons_self _ _, ?_⟩
    simp only [bne_iff_ne, ne_eq]
    omega
  · intro sz hmem
    simp only [sysRealloc, sysAlloc, sysDealloc] at hmem
    have := (List.mem_filter.mp hmem).2
    simp at this
  · intro i hi
    simp only [sysRealloc, sysAlloc, sysDealloc, setRange]
    rw [if_pos (by simp only [ALIGNMENT] at *; omega)]
    congr 1
    simp only [ALIGNMENT]
    omega

theorem c5_realloc_witness :
    SysHeap.wf ⟨37, [(16, 21)], fun a => if a = 16 then some 5 else none,
      fun _ => none⟩ ∧
    (SysHeap.hdrs ⟨37, [(16, 21)], fun a => if a = 16 then some 5 else none,
      fun _ => none⟩) 16 = some 5 ∧
    (16, 5 + ALIGNMENT) ∈ SysHeap.live ⟨37, [(16, 21)],
      fun a => if a = 16 then some 5 else none, fun _ => none⟩ ∧
    9 ≤ ISIZE_MAX ∧
    ReallocSpec ⟨37, [(16, 21)], fun a => if a = 16 then some 5 else none,
      fun _ => none⟩ 16 5 9 := by
  have h1 : SysHeap.wf ⟨37, [(16, 21)],
      fun a => if a = 16 then some 5 else none, fun _ => none⟩ := by
    intro b hb
    simp at hb
    subst hb
    simp
  have h2 : (SysHeap.hdrs ⟨37, [(16, 21)],
      fun a => if a = 16 then some 5 else none, fun _ => none⟩) 16
      = some 5 := by simp
  have h3 : (16, 5 + ALIGNMENT) ∈ SysHeap.live ⟨37, [(16, 21)],
      fun a => if a = 16 then some 5 else none, fun _ => none⟩ := by
    simp only [ALIGNMENT]
    exact List.mem_cons_self _ _
  have h4 : 9 ≤ ISIZE_MAX := by decide
  exact ⟨h1, h2, h3, h4, c5_realloc _ 16 5 9 h1 h2 h3 h4⟩

theorem c3_malloc_header_alignment_witness :
    5 ≤ ISIZE_MAX ∧ SysHeap.wf SysHeap.init ∧ MallocSpec SysHeap.init 5 0 := by
  have h1 : 5 ≤ ISIZE_MAX := by decide
  have h2 : SysHeap.wf SysHeap.init := by
    intro b hb
    simp [SysHeap.init] at hb
  exact ⟨h1, h2, c3_malloc_header_alignment SysHeap.init 5 0 h1 h2⟩

theorem c4_calloc_zero_fill_witness :
    5 ≤ ISIZE_MAX ∧ CallocSpec SysHeap.init 5 0 := by
  have h1 : 5 ≤ ISIZE_MAX := by decide
  exact ⟨h1, c4_calloc_zero_fill SysHeap.init 5 0 h1⟩

/-- C6.  For every host byte slice (mutable or shared) and every host
string slice coherent with memory, converting it to its view type
(`ByteSpan`, `ConstByteSpan`, `StringView`) and back yields a slice with
byte-identical content and the original length. -/
theorem c6_view_round_trip (mem : Mem) (s : HostSlice)
    (hc : HostSlice.coherent mem s) :
    ByteSpan.to_mut_slice mem (ByteSpan.from_mut_slice s) = s ∧
    (ByteSpan.from_mut_slice s).data_length = s.content.length ∧
    ConstByteSpan.to_slice mem (ConstByteSpan.from_slice s) = s ∧
    (ConstByteSpan.from_slice s).data_length = s.content.length ∧
    StringView.to_str mem (StringView.from_str s) = s ∧
    (StringView.from_str s).size = s.content.length := by
  obtain ⟨addr, content⟩ := s
  have h := readBytes_of_coherent mem content addr hc
  refine ⟨?_, rfl, ?_, rfl, ?_, rfl⟩ <;>
    simp [ByteSpan.to_mut_slice, ByteSpan.from_mut_slice,
      ConstByteSpan.to_slice, ConstByteSpan.from_slice,
      StringView.to_str, StringView.from_str, h]

theorem c6_view_round_trip_witness :
    HostSlice.coherent (fun _ => 5) ⟨3, [5, 5]⟩ ∧
    (ByteSpan.to_mut_slice (fun _ => 5)
      (ByteSpan.from_mut_slice ⟨3, [5, 5]⟩) = ⟨3, [5, 5]⟩ ∧
    (ByteSpan.from_mut_slice ⟨3, [5, 5]⟩).data_length = [5, 5].length ∧
    ConstByteSpan.to_slice (fun _ => 5)
      (ConstByteSpan.from_slice ⟨3, [5, 5]⟩) = ⟨3, [5, 5]⟩ ∧
    (ConstByteSpan.from_slice ⟨3, [5, 5]⟩).data_length = [5, 5].length ∧
    StringView.to_str (fun _ => 5)
      (StringView.from_str ⟨3, [5, 5]⟩) = ⟨3, [5, 5]⟩ ∧
    (StringView.from_str ⟨3, [5, 5]⟩).size = [5, 5].length) := by
  have hc : HostSlice.coherent (fun _ => 5) ⟨3, [5, 5]⟩ := by
    intro i hi
    simp at hi
    interval_cases i <;> rfl
  exact ⟨hc, c6_view_round_trip (fun _ => 5) ⟨3, [5, 5]⟩ hc⟩

/-- C7.  For every `Status` value, the success test is equality of the
pointer-sized raw value with zero, and `to_result` returns `Ok(())`
exactly when the raw value is zero, otherwise `Err` carrying the owned
error record. -/
theorem c7_status_to_result (s : Status) :
    (Status.is_ok s = true ↔ s.ctx = 0) ∧
    (Status.to_result s = Except.ok () ↔ s.ctx = 0) ∧
    (Status.to_result s = Except.error ⟨s⟩ ↔ s.ctx ≠ 0) := by
  unfold Status.to_result Status.is_ok
  by_cases h : s.ctx = 0 <;> simp [h]

theorem c7_status_to_result_witness :
    ((Status.is_ok ⟨5⟩ = true ↔ (Status.mk 5).ctx = 0) ∧
    (Status.to_result ⟨5⟩ = Except.ok () ↔ (Status.mk 5).ctx = 0) ∧
    (Status.to_result ⟨5⟩ = Except.error ⟨⟨5⟩⟩ ↔ (Status.mk 5).ctx ≠ 0)) :=
  c7_status_to_result ⟨5⟩

set_option maxHeartbeats 1600000 in
/-- C8.  Mapping native status codes to the 18-member taxonomy is total:
every value outside the 17 documented codes maps to the catch-all
`UnknownStatus`.  Mapping back, every non-catch-all variant goes to its
documented native code (and round-trips), while the catch-all has no
native representative: its arm aborts, modelled as `none`. -/
theorem c8_status_code_taxonomy :
    (∀ c : Nat, c ∉ documentedStatusCodes →
      StatusErrorKind.from_status_code c = .UnknownStatus) ∧
    (∀ k : StatusErrorKind, k ≠ .UnknownStatus →
      ∃ c, c ∈ documentedStatusCodes ∧
        StatusErrorKind.to_status_code k = some c ∧
        StatusErrorKind.from_status_code c = k) ∧
    StatusErrorKind.to_status_code .UnknownStatus = none := by
  refine ⟨?_, ?_, rfl⟩
  case refine_2 =>
    intro k hk
    cases k with
    | Cancelled => exact ⟨1, by decide, rfl, by decide⟩
    | Unknown => exact ⟨2, by decide, rfl, by decide⟩
    | InvalidArgument => exact ⟨3, by decide, rfl, by decide⟩
    | DeadlineExceeded => exact ⟨4, by decide, rfl, by decide⟩
    | NotFound => exact ⟨5, by decide, rfl, by decide⟩
    | AlreadyExists => exact ⟨6, by decide, rfl, by decide⟩
    | PermissionDenied => exact ⟨7, by decide, rfl, by decide⟩
    | ResourceExhausted => exact ⟨8, by decide, rfl, by decide⟩
    | FailedPrecondition => exact ⟨9, by decide, rfl, by decide⟩
    | Aborted => exact ⟨10, by decide, rfl, by decide⟩
    | OutOfRange => exact ⟨11, by decide, rfl, by decide⟩
    | Unimplemented => exact ⟨12, by decide, rfl, by decide⟩
    | Internal => exact ⟨13, by decide, rfl, by decide⟩
    | Unavailable => exact ⟨14, by decide, rfl, by decide⟩
    | DataLoss => exact ⟨15, by decide, rfl, by decide⟩
    | Unauthenticated => exact ⟨16, by decide, rfl, by decide⟩
    | Deferred => exact ⟨17, by decide, rfl, by decide⟩
    | UnknownStatus => exact absurd rfl hk
  intro c hc
  simp [documentedStatusCodes] at hc
  obtain ⟨h1, h2, h3, h4, h5, h6, h7, h8, h9, h10, h11, h12, h13, h14, h15,
    h16, h17⟩ := hc
  unfold StatusErrorKind.from_status_code
  unfold IREE_STATUS_CANCELLED IREE_STATUS_UNKNOWN IREE_STATUS_INVALID_ARGUMENT
    IREE_STATUS_DEADLINE_EXCEEDED IREE_STATUS_NOT_FOUND
    IREE_STATUS_ALREADY_EXISTS IREE_STATUS_PERMISSION_DENIED
    IREE_STATUS_RESOURCE_EXHAUSTED IREE_STATUS_FAILED_PRECONDITION
    IREE_STATUS_ABORTED IREE_STATUS_OUT_OF_RANGE IREE_STATUS_UNIMPLEMENTED
    IREE_STATUS_INTERNAL IREE_STATUS_UNAVAILABLE IREE_STATUS_DATA_LOSS
    IREE_STATUS_UNAUTHENTICATED IREE_STATUS_DEFERRED
  rw [if_neg h1, if_neg h2, if_neg h3, if_neg h4, if_neg h5, if_neg h6,
    if_neg h7, if_neg h8, if_neg h9, if_neg h10, if_neg h11, if_neg h12,
    if_neg h13, if_neg h14, if_neg h15, if_neg h16, if_neg h17]

theorem c8_status_code_taxonomy_witness :
    StatusErrorKind.from_status_code 255 = .UnknownStatus ∧
    (∃ c, c ∈ documentedStatusCodes ∧
      StatusErrorKind.to_status_code .NotFound = some c ∧
      StatusErrorKind.from_status_code c = .NotFound) :=
  ⟨c8_status_code_taxonomy.1 255 (by decide),
   c8_status_code_taxonomy.2.1 .NotFound (by decide)⟩

/-- C9.  A `Status` destroyed without having been converted or discarded
emits, through its drop glue, exactly one `iree_status_ignore` call on its
raw value when it is non-ok, and no disposal call at all when it is the
success status. -/
theorem c9_status_drop_discipline (s : Status) :
    (Status.dropGlue s = [NativeCall.status_ignore s.ctx] ↔ s.ctx ≠ 0) ∧
    ((Status.dropGlue s).count (NativeCall.status_ignore s.ctx) = 1 ↔
      s.ctx ≠ 0) ∧
    (Status.dropGlue s = [] ↔ s.ctx = 0) := by
  unfold Status.dropGlue Status.is_ok
  by_cases h : s.ctx = 0 <;> simp [h, List.count_cons]

theorem c9_status_drop_discipline_witness :
    ((Status.dropGlue ⟨7⟩ = [NativeCall.status_ignore (Status.mk 7).ctx] ↔
      (Status.mk 7).ctx ≠ 0) ∧
    ((Status.dropGlue ⟨7⟩).count (NativeCall.status_ignore (Status.mk 7).ctx)
      = 1 ↔ (Status.mk 7).ctx ≠ 0) ∧
    (Status.dropGlue ⟨7⟩ = [] ↔ (Status.mk 7).ctx = 0)) :=
  c9_status_drop_discipline ⟨7⟩

/-- C10.  `Session::append_module_from_file` panics (through `unwrap`)
exactly when the path bytes are not valid UTF-8 or contain a NUL byte; the
status-derived return path — in particular the error return — is reached
exactly for paths convertible to a NUL-free UTF-8 C string. -/
theorem c10_append_module_from_file_panics (st : Nat) (p : List Nat) :
    (append_module_from_file st p = .panicked ↔
      (utf8Valid p = false ∨ 0 ∈ p)) ∧
    (append_module_from_file st p =
        .returned ((Status.from_raw st).to_result.mapError
          RuntimeError.StatusError) ↔
      (utf8Valid p = true ∧ 0 ∉ p)) := by
  unfold append_module_from_file pathToStrBytes cStringNew
  by_cases h1 : utf8Valid p <;> by_cases h2 : (0 : Nat) ∈ p <;>
    simp [h1, h2]

theorem c10_append_module_from_file_panics_witness :
    ((append_module_from_file 5 [0xFF] = .panicked ↔
      (utf8Valid [0xFF] = false ∨ 0 ∈ [0xFF])) ∧
    (append_module_from_file 5 [0xFF] =
        .returned ((Status.from_raw 5).to_result.mapError
          RuntimeError.StatusError) ↔
      (utf8Valid [0xFF] = true ∧ 0 ∉ [0xFF]))) :=
  c10_append_module_from_file_panics 5 [0xFF]

end IreeRs
